import Mathlib

/-!
Verification of the mux HTTP request-dispatch layer.

The Go sources are embedded shallowly:

* Handlers (`Handler.Handle(ctx) error`) become trace-passing functions
  `Context → List Ev → List Ev × Option Err`: world effects (middleware
  probes, log lines, response writes) are recorded in an event list, and a
  non-nil Go `error` return becomes `some err`.
* `App` carries its post-construction configuration, the `*http.ServeMux`
  (modelled as an optional route table, `none` modelling a nil mux), the
  global middleware stack, and the `http.Server` fields that `New` sets.
* The dispatch closure installed by `App.addRoute` is `runWrapper`: it
  captures the registration-time handler and route middleware but reads the
  application's global middleware stack through the `app` pointer at request
  time, exactly as the Go closure does.
* The `sync.Pool` of contexts is a deterministic LIFO free list; the
  `Context.app` back-reference is modelled as a presence token (`Option Unit`)
  because Lean forbids the `Context`/`App` type cycle the Go pointers form.
* For the `Group` claims, Go slices are modelled with explicit backing
  arrays on a heap, a length and a capacity, and `append` follows the Go
  specification (reuse the array when capacity suffices, else reallocate)
  with the standard Go runtime's small-slice growth (doubling).
-/

namespace Mux

abbrev Err := String

/-- Observable world effects of one request: middleware probes entering and
leaving, the base handler running, log lines, and HTTP response writes. -/
inductive Ev where
  | enter (i : Nat)
  | leave (i : Nat)
  | handle (i : Nat)
  | log (s : String)
  | write (status : Nat) (body : String)
deriving DecidableEq, Repr

/-- The Context struct from handler.go: back-reference to the owning App
(presence token), request handle and response writer (as ids). -/
structure Context where
  app : Option Unit
  req : Option Nat
  res : Option Nat
deriving DecidableEq, Repr

/-- Handler.Handle(ctx) error, with effects threaded through an event list. -/
abbrev Handler := Context → List Ev → List Ev × Option Err

/-- MiddlewareFunc from handler.go: a transform Handler → Handler. -/
abbrev MiddlewareFunc := Handler → Handler

/-- Result of one ErrorHandler invocation: its effects and its returned error. -/
structure EHResult where
  events : List Ev
  ret : Option Err
deriving Repr

/-- ErrorHandler = func(*Context, error) error; the pointer may be nil. -/
abbrev ErrorHandler := Option Context → Err → EHResult

/-- http.StatusText(http.StatusInternalServerError). -/
def statusText500 : String := "Internal Server Error"

/-- DefaultErrorHandler from handler.go: on a nil context or nil response
writer it only logs and returns the error; otherwise it logs and writes a
generic 500 response via http.Error (which appends a newline to the body). -/
def defaultErrorHandler : ErrorHandler := fun c err =>
  match c with
  | none => { events := [Ev.log ("error: " ++ err ++ " (context nil)")], ret := some err }
  | some ctx =>
    match ctx.res with
    | none => { events := [Ev.log ("error: " ++ err ++ " (context nil)")], ret := some err }
    | some _ =>
      { events := [Ev.log ("internal server error: " ++ err),
                   Ev.write 500 (statusText500 ++ "\n")],
        ret := some err }

/-- One nanosecond-granularity second, matching time.Duration. -/
def second : Int := 1000000000

/-- Config from app.go; zero values (and a nil ErrorHandler) mark defaults. -/
structure Config where
  bodyLimit : Int := 0
  readTimeout : Int := 0
  writeTimeout : Int := 0
  idleTimeout : Int := 0
  errorHandler : Option ErrorHandler := none

/-- The configuration as stored in App after New resolved the defaults: the
error handler is guaranteed non-nil from then on. -/
structure AppConfig where
  bodyLimit : Int
  readTimeout : Int
  writeTimeout : Int
  idleTimeout : Int
  errorHandler : ErrorHandler

/-- One registration in the ServeMux table: the pattern "METHOD path" and the
values the dispatch closure captured at registration time. -/
structure RouteEntry where
  pattern : String
  handler : Handler
  middleware : List MiddlewareFunc

/-- The http.Server fields New sets. handlerIsApp records that the app itself
was installed as the server's handler. -/
structure Server where
  addr : String
  readTimeout : Int
  writeTimeout : Int
  idleTimeout : Int
  handlerIsApp : Bool

/-- The App struct from app.go. mux is the *http.ServeMux: none models a nil
mux, some the mux with its registration table. -/
structure App where
  config : AppConfig
  mux : Option (List RouteEntry)
  middleware : List MiddlewareFunc
  server : Server

/-- New from app.go: replace zero-valued config fields with the defaults,
initialise an empty mux and global middleware stack, and build the server
with the resolved timeouts and the app installed as handler. -/
def New (config : Config) : App :=
  let bodyLimit := if config.bodyLimit = 0 then 4 * 1024 * 1024 else config.bodyLimit
  let readTimeout := if config.readTimeout = 0 then 15 * second else config.readTimeout
  let writeTimeout := if config.writeTimeout = 0 then 15 * second else config.writeTimeout
  let idleTimeout := if config.idleTimeout = 0 then 60 * second else config.idleTimeout
  let errorHandler :=
    match config.errorHandler with
    | none => defaultErrorHandler
    | some eh => eh
  { config := { bodyLimit := bodyLimit, readTimeout := readTimeout,
                writeTimeout := writeTimeout, idleTimeout := idleTimeout,
                errorHandler := errorHandler },
    mux := some [],
    middleware := [],
    server := { addr := "", readTimeout := readTimeout, writeTimeout := writeTimeout,
                idleTimeout := idleTimeout, handlerIsApp := true } }

/-- App.Use: append the given middleware to the global stack. -/
def App.Use (app : App) (middleware : List MiddlewareFunc) : App :=
  { app with middleware := app.middleware ++ middleware }

/-- App.addRoute: install a route under the pattern "METHOD path". The entry
keeps the handler and route middleware the Go closure captured; the global
stack is looked up through the app at dispatch time (see runWrapper). -/
def App.addRoute (app : App) (method path : String) (handler : Handler)
    (middleware : List MiddlewareFunc) : App :=
  { app with
    mux := app.mux.map fun rs =>
      rs ++ [{ pattern := method ++ " " ++ path, handler := handler,
               middleware := middleware }] }

/-- App.Get registers a GET route. -/
def App.Get (app : App) (path : String) (handler : Handler)
    (middleware : List MiddlewareFunc) : App :=
  app.addRoute "GET" path handler middleware

/-- The route-middleware loop inside the dispatch closure of App.addRoute:
wrap the handler in reverse registration order. -/
def routeCompose (middleware : List MiddlewareFunc) (handler : Handler) : Handler :=
  middleware.foldr (fun m acc => m acc) handler

/-- App.applyMiddleware: wrap with the global stack in reverse order. -/
def App.applyMiddleware (app : App) (handler : Handler) : Handler :=
  app.middleware.foldr (fun m acc => m acc) handler

/-- App.acquireContext: pop a context from the pool (or allocate a zero one)
and populate its three fields from the arguments. -/
def App.acquireContext (req res : Nat) (pool : List Context) : Context × List Context :=
  match pool with
  | [] => ({ app := some (), req := some req, res := some res }, [])
  | c :: rest => ({ c with app := some (), req := some req, res := some res }, rest)

/-- App.releaseContext: clear the three fields one by one and return the
instance to the pool. -/
def App.releaseContext (ctx : Context) (pool : List Context) : List Context :=
  let c1 := { ctx with app := none }
  let c2 := { c1 with req := none }
  let c3 := { c2 with res := none }
  c3 :: pool

/-- Outcome of serving one request: the world effects, the list of error
handler invocations with their arguments (instrumentation recording each
call), and the context pool afterwards. -/
structure ServeResult where
  events : List Ev
  ehCalls : List (Context × Err)
  pool : List Context
deriving Repr

/-- The dispatch closure installed by App.addRoute: acquire a context, wrap
the captured handler in the captured route middleware, then in the global
stack read through the app at request time, run the chain, hand a failure to
the configured error handler (once, before the deferred release clears the
context), and release the context unconditionally. The context acquired once
in the Go code is written here as repeated projections of the same pure
acquireContext call. -/
def runWrapper (app : App) (entry : RouteEntry) (req res : Nat)
    (pool : List Context) (log : List Ev) : ServeResult :=
  match app.applyMiddleware (routeCompose entry.middleware entry.handler)
      (App.acquireContext req res pool).1 log with
  | (evs, some e) =>
    { events := evs ++ (app.config.errorHandler (some (App.acquireContext req res pool).1) e).events,
      ehCalls := [((App.acquireContext req res pool).1, e)],
      pool := App.releaseContext (App.acquireContext req res pool).1
                (App.acquireContext req res pool).2 }
  | (evs, none) =>
    { events := evs, ehCalls := [],
      pool := App.releaseContext (App.acquireContext req res pool).1
                (App.acquireContext req res pool).2 }

/-- http.NotFound's response body. -/
def notFoundBody : String := "404 page not found\n"

/-- App.ServeHTTP: delegate to the mux when non-nil (the ServeMux invokes the
installed closure on an exact pattern match and writes a 404 not-found
response when nothing matches); on a nil mux write the 404 directly. -/
def App.serveHTTP (app : App) (method path : String) (req res : Nat)
    (pool : List Context) (log : List Ev) : ServeResult :=
  match app.mux with
  | some routes =>
    match routes.find? (fun e => e.pattern == method ++ " " ++ path) with
    | some entry => runWrapper app entry req res pool log
    | none => { events := log ++ [Ev.write 404 notFoundBody], ehCalls := [], pool := pool }
  | none => { events := log ++ [Ev.write 404 notFoundBody], ehCalls := [], pool := pool }

/-- Instrumentation middleware: record entering before delegating and leaving
after control returns. -/
def probe (i : Nat) : MiddlewareFunc := fun h => fun ctx log =>
  let out := h ctx (log ++ [Ev.enter i])
  (out.1 ++ [Ev.leave i], out.2)

/-- A base handler that records its run and succeeds. -/
def baseHandler (i : Nat) : Handler := fun _ log => (log ++ [Ev.handle i], none)

/-- A base handler that records its run and fails with the given error. -/
def failingHandler (i : Nat) (e : Err) : Handler := fun _ log => (log ++ [Ev.handle i], some e)

/-!
Go-slice model for the Group claims. A slice value is a header (backing
array id, length, capacity) over a heap of backing arrays; each array is
stored at full capacity. Middleware values are opaque and identified by
numbers. This level of detail is needed because the Group claims speak about
reference sharing between slice headers, which value semantics cannot state.
-/

/-- The heap of slice backing arrays; an array id is its index here and each
stored list has length equal to the array's capacity. -/
structure Heap where
  arrays : List (List Nat)
deriving DecidableEq, Repr

/-- Contents of a backing array. -/
def Heap.read (h : Heap) (a : Nat) : List Nat := h.arrays.getD a []

/-- Overwrite a backing array. -/
def Heap.writeArr (h : Heap) (a : Nat) (xs : List Nat) : Heap :=
  { arrays := h.arrays.set a xs }

/-- A Go slice header: backing array id, length, capacity. -/
structure GoSlice where
  arr : Nat
  len : Nat
  cap : Nat
deriving DecidableEq, Repr

/-- The element sequence a slice header observes. -/
def observed (h : Heap) (s : GoSlice) : List Nat := (h.read s.arr).take s.len

/-- The Go runtime's capacity growth for small slices: double the old
capacity unless the needed length exceeds the doubling. -/
def growCap (need oldcap : Nat) : Nat :=
  if oldcap = 0 then need else if need ≤ 2 * oldcap then 2 * oldcap else need

/-- Go's append: when the capacity suffices, write the new elements into the
existing backing array past the length (visible to every header sharing that
array); otherwise copy into a freshly allocated larger array. -/
def goAppend (h : Heap) (s : GoSlice) (xs : List Nat) : Heap × GoSlice :=
  let need := s.len + xs.length
  if need ≤ s.cap then
    let old := h.read s.arr
    (h.writeArr s.arr (old.take s.len ++ xs ++ old.drop need),
     { arr := s.arr, len := need, cap := s.cap })
  else
    let newcap := growCap need s.cap
    ({ arrays := h.arrays ++ [(h.read s.arr).take s.len ++ xs ++ List.replicate (newcap - need) 0] },
     { arr := h.arrays.length, len := need, cap := newcap })

/-- Allocate a fresh backing array with exact capacity, as a variadic
argument slice or a make-with-exact-capacity copy does. -/
def allocExact (h : Heap) (xs : List Nat) : Heap × GoSlice :=
  ({ arrays := h.arrays ++ [xs] },
   { arr := h.arrays.length, len := xs.length, cap := xs.length })

/-- The Group struct: accumulated path (named pfx because Lean reserves
the source's field name) and accumulated middleware slice. The owning App
back-pointer is left implicit. -/
structure GroupM where
  pfx : String
  middleware : GoSlice
deriving DecidableEq, Repr

/-- App.Group: build a group storing the variadic middleware slice, whose
backing array has exact capacity. -/
def appGroup (h : Heap) (pfx : String) (middleware : List Nat) : Heap × GroupM :=
  let al := allocExact h middleware
  (al.1, { pfx := pfx, middleware := al.2 })

/-- Group.Use: g.middleware = append(g.middleware, middleware...); the group
is mutated through its pointer, so the returned group replaces g. -/
def GroupM.Use (h : Heap) (g : GroupM) (middleware : List Nat) : Heap × GroupM :=
  let ap := goAppend h g.middleware middleware
  (ap.1, { g with middleware := ap.2 })

/-- Group.Group: derive a child with concatenated path and middleware
append(g.middleware, middleware...); the parent's header is unchanged. -/
def GroupM.Group (h : Heap) (g : GroupM) (pfx2 : String) (middleware : List Nat) :
    Heap × GroupM :=
  let ap := goAppend h g.middleware middleware
  (ap.1, { pfx := g.pfx ++ pfx2, middleware := ap.2 })

/-- A registration produced by Group.addRoute. -/
structure RouteReg where
  method : String
  fullPath : String
  middleware : List Nat
deriving DecidableEq, Repr

/-- Group.addRoute: full path is prefix + path and the middleware passed on
to App.addRoute is a fresh exact-capacity copy of the group's observed
middleware followed by the call-site middleware, recorded here by value. -/
def GroupM.addRoute (h : Heap) (g : GroupM) (method path : String)
    (middleware : List Nat) : RouteReg :=
  { method := method, fullPath := g.pfx ++ path,
    middleware := observed h g.middleware ++ middleware }

/-- Acquiring a context always yields a fully populated context, whether the
pool supplied an instance or a fresh one was allocated. -/
theorem acquireContext_populates (req res : Nat) (pool : List Context) :
    (App.acquireContext req res pool).1
      = { app := some (), req := some req, res := some res } := by
  cases pool <;> rfl

/-- Claim C1 is violated by the code: a route registered before App.Use picks
the later middleware up anyway, because the dispatch closure reads the global
stack at request time. Registering route /a, then appending probe 9 to the
global stack, then dispatching GET /a produces a trace that exhibits probe
9's effect around the handler. -/
theorem C1_use_after_registration_applies :
    ((((New {}).Get "/a" (baseHandler 0) []).Use [probe 9]).serveHTTP
        "GET" "/a" 1 2 [] []).events
      = [Ev.enter 9, Ev.handle 0, Ev.leave 9] := by
  rfl

/-- Claim C2: the chain the dispatch closure executes is the global stack
folded over the route-middleware fold, i.e. g1 (g2 (... gm (r1 (... rn H)))),
and on a concrete request with two global and two route probes the observed
effect order is g1 g2 r1 r2 H r2 r1 g2 g1. -/
theorem C2_composition_order :
    (∀ (app : App) (R : List MiddlewareFunc) (H : Handler),
        app.applyMiddleware (routeCompose R H)
          = (app.middleware ++ R).foldr (fun m acc => m acc) H) ∧
    ((((New {}).Use [probe 1, probe 2]).Get "/h" (baseHandler 0)
        [probe 3, probe 4]).serveHTTP "GET" "/h" 1 2 [] []).events
      = [Ev.enter 1, Ev.enter 2, Ev.enter 3, Ev.enter 4, Ev.handle 0,
         Ev.leave 4, Ev.leave 3, Ev.leave 2, Ev.leave 1] := by
  constructor
  · intro app R H
    simp [App.applyMiddleware, routeCompose, List.foldr_append]
  · rfl

/-- Claim C3 is violated by the code: after the parent's Use leaves spare
capacity, deriving children shares the parent's backing array (same array
id), and the sibling children's Use calls write into the same slot, so
mutating one child changes the middleware sequence the other child observes
(from [1,2,3,4,5] to [1,2,3,4,6]). -/
theorem C3_child_group_aliasing :
    (let h0 : Heap := { arrays := [] }
     let s1 := appGroup h0 "/api" [1, 2, 3]
     let s2 := GroupM.Use s1.1 s1.2 [4]
     let a := GroupM.Group s2.1 s2.2 "/a" []
     let b := GroupM.Group a.1 s2.2 "/b" []
     let a2 := GroupM.Use b.1 a.2 [5]
     let b2 := GroupM.Use a2.1 b.2 [6]
     a.2.middleware.arr = s2.2.middleware.arr ∧
     observed a2.1 a2.2.middleware = [1, 2, 3, 4, 5] ∧
     observed b2.1 a2.2.middleware = [1, 2, 3, 4, 6]) := by
  decide

/-- Claim C4: the dispatch closure hands the chain a context populated from
the request/response pair, releases that context into the pool whatever the
chain returned, and invokes the configured error handler exactly once with
the chain's failure and the still-populated context precisely when the chain
fails. -/
theorem C4_dispatch_wrapper_contract (app : App) (entry : RouteEntry) (req res : Nat)
    (pool : List Context) (log : List Ev) :
    (App.acquireContext req res pool).1
      = { app := some (), req := some req, res := some res } ∧
    (runWrapper app entry req res pool log).pool
      = App.releaseContext (App.acquireContext req res pool).1
          (App.acquireContext req res pool).2 ∧
    (runWrapper app entry req res pool log).ehCalls
      = (match (app.applyMiddleware (routeCompose entry.middleware entry.handler)
            (App.acquireContext req res pool).1 log).2 with
         | some e => [((App.acquireContext req res pool).1, e)]
         | none => []) ∧
    (runWrapper app entry req res pool log).events
      = (match app.applyMiddleware (routeCompose entry.middleware entry.handler)
            (App.acquireContext req res pool).1 log with
         | (evs, some e) =>
             evs ++ (app.config.errorHandler (some (App.acquireContext req res pool).1) e).events
         | (evs, none) => evs) := by
  refine ⟨acquireContext_populates req res pool, ?_, ?_, ?_⟩ <;>
  · rcases hout : app.applyMiddleware (routeCompose entry.middleware entry.handler)
        (App.acquireContext req res pool).1 log with ⟨evs, err⟩
    cases err <;> simp [runWrapper, hout]

/-- Claim C5: releasing a context pushes an instance with all three fields
cleared onto the pool, and a subsequent acquire of that same backing instance
returns it fully repopulated from the acquire arguments, restoring the pool. -/
theorem C5_pool_roundtrip (ctx : Context) (pool : List Context) (req res : Nat) :
    App.releaseContext ctx pool
      = { app := none, req := none, res := none } :: pool ∧
    App.acquireContext req res (App.releaseContext ctx pool)
      = ({ app := some (), req := some req, res := some res }, pool) := by
  exact ⟨rfl, rfl⟩

/-- Claim C6 is violated by the code: with two children sharing the parent's
backing array, the sibling's Use (appending middleware 6) overwrites the slot
holding the first child's own middleware 5, so a route registered afterwards
through the first child carries [1,2,3,4,6] instead of the child's accumulated
sequence [1,2,3,4,5]; its full path is still prefix + path. -/
theorem C6_sibling_use_interference :
    (let h0 : Heap := { arrays := [] }
     let s1 := appGroup h0 "/api" [1, 2, 3]
     let s2 := GroupM.Use s1.1 s1.2 [4]
     let a := GroupM.Group s2.1 s2.2 "/a" []
     let b := GroupM.Group a.1 s2.2 "/b" []
     let a2 := GroupM.Use b.1 a.2 [5]
     let b2 := GroupM.Use a2.1 b.2 [6]
     let r := GroupM.addRoute b2.1 a2.2 "GET" "/x" []
     r.fullPath = "/api/a" ++ "/x" ∧
     r.middleware = [1, 2, 3, 4, 6] ∧ 5 ∉ r.middleware) := by
  decide

/-- Claim C7: the default error handler returns the original error in every
case; on a nil context or nil response writer it only logs (no write event);
otherwise it logs and writes a 500 response whose body is exactly the generic
status text (plus newline), independent of the error's message. -/
theorem C7_default_error_handler_contract (c : Option Context) (e : Err) :
    (defaultErrorHandler c e).ret = some e ∧
    (match c with
     | none => (defaultErrorHandler c e).events
         = [Ev.log ("error: " ++ e ++ " (context nil)")]
     | some ctx =>
       match ctx.res with
       | none => (defaultErrorHandler c e).events
           = [Ev.log ("error: " ++ e ++ " (context nil)")]
       | some _ => (defaultErrorHandler c e).events
           = [Ev.log ("internal server error: " ++ e),
              Ev.write 500 (statusText500 ++ "\n")]) := by
  rcases c with _ | ⟨a, q, r⟩
  · exact ⟨rfl, rfl⟩
  · rcases r with _ | r <;> exact ⟨rfl, rfl⟩

/-- Claim C8: constructing from a configuration whose five fields are all
zero-valued yields the documented defaults in the stored configuration and
installs the timeout values field-by-field on the underlying server. -/
theorem C8_construction_defaults (cfg : Config)
    (h1 : cfg.bodyLimit = 0) (h2 : cfg.readTimeout = 0) (h3 : cfg.writeTimeout = 0)
    (h4 : cfg.idleTimeout = 0) (h5 : cfg.errorHandler = none) :
    (New cfg).config.bodyLimit = 4 * 1024 * 1024 ∧
    (New cfg).config.readTimeout = 15 * second ∧
    (New cfg).config.writeTimeout = 15 * second ∧
    (New cfg).config.idleTimeout = 60 * second ∧
    (New cfg).config.errorHandler = defaultErrorHandler ∧
    (New cfg).server.readTimeout = 15 * second ∧
    (New cfg).server.writeTimeout = 15 * second ∧
    (New cfg).server.idleTimeout = 60 * second ∧
    (New cfg).server.handlerIsApp = true := by
  simp [New, h1, h2, h3, h4, h5]

/-- Witness for C8 at the all-zero configuration. -/
theorem C8_construction_defaults_witness :
    (New {}).config.bodyLimit = 4 * 1024 * 1024 ∧
    (New {}).config.readTimeout = 15 * second ∧
    (New {}).config.writeTimeout = 15 * second ∧
    (New {}).config.idleTimeout = 60 * second ∧
    (New {}).config.errorHandler = defaultErrorHandler ∧
    (New {}).server.readTimeout = 15 * second ∧
    (New {}).server.writeTimeout = 15 * second ∧
    (New {}).server.idleTimeout = 60 * second ∧
    (New {}).server.handlerIsApp = true :=
  C8_construction_defaults {} rfl rfl rfl rfl rfl

/-- Claim C9: with no routes installed, the entry point answers any request,
whatever its method and path, with the fixed 404 not-found response and
reports no error. -/
theorem C9_no_route_not_found (cfg : Config) (method path : String) (req res : Nat)
    (pool : List Context) (log : List Ev) :
    (New cfg).serveHTTP method path req res pool log
      = { events := log ++ [Ev.write 404 notFoundBody], ehCalls := [], pool := pool } := by
  rfl

/-- Claim C10: the dispatch closure discards the error handler's returned
error: replacing the configured handler's return value by anything else,
keeping its effects, leaves the outcome of dispatch unchanged. -/
theorem C10_error_handler_return_discarded (app : App) (entry : RouteEntry)
    (req res : Nat) (pool : List Context) (log : List Ev) (ret2 : Option Err) :
    runWrapper
      { app with config := { app.config with
          errorHandler := fun c e =>
            { events := (app.config.errorHandler c e).events, ret := ret2 } } }
      entry req res pool log
      = runWrapper app entry req res pool log := by
  rcases hout : app.applyMiddleware (routeCompose entry.middleware entry.handler)
      (App.acquireContext req res pool).1 log with ⟨evs, err⟩
  have hout2 : App.applyMiddleware
      { app with config := { app.config with
          errorHandler := fun c e =>
            { events := (app.config.errorHandler c e).events, ret := ret2 } } }
      (routeCompose entry.middleware entry.handler)
      (App.acquireContext req res pool).1 log = (evs, err) := hout
  cases err <;> simp [runWrapper, hout, hout2]

end Mux
